import Mathlib

/-!
Verification of the command-helper subsystem of a Rust build-helper crate
(`src/command_helpers.rs`): the incremental stderr line forwarder
(`StderrForwarder`), the process lifecycle (`spawn`, `wait_on_child`, `run`),
and the error taxonomy (`ErrorKind`, `Error`).

The Rust code is shallowly embedded: bytes are `Nat`, the child stderr stream
is a finite trace of read results (`ReadResult`), stateful loops become
explicit recursion over the trace, and panics / indefinitely-blocking reads
become `Option.none`.
-/

set_option maxRecDepth 4000

namespace CommandHelpers

/-- One result of calling `stderr.read` on the child stderr handle.
`ok []` is a successful read of zero bytes (end of stream); `ok bytes` with
`bytes` nonempty is a successful read; `wouldBlock` and `interrupted` are the
`io::ErrorKind::WouldBlock` / `Interrupted` errors; `readErr` is any other
read error, carrying its display text. -/
inductive ReadResult where
  | ok (bytes : List Nat)
  | wouldBlock
  | interrupted
  | readErr (msg : String)
deriving DecidableEq

/-- Split a byte buffer into its complete (newline-terminated) lines and the
trailing partial line.  This is the effect of the Rust loop over
`buffer.split_inclusive` at the newline byte, forwarding via `split_last`
each piece that ends in a newline and counting it into `consumed`,
followed by `buffer.drain(..consumed)`: the first component is the list of
forwarded line contents (newline excluded, in order), the second is what
remains in the buffer. -/
def splitLines : List Nat → List (List Nat) × List Nat
  | [] => ([], [])
  | b :: rest =>
    if b = 10 then
      ([] :: (splitLines rest).1, (splitLines rest).2)
    else
      match splitLines rest with
      | ([], t) => ([], b :: t)
      | (l :: ls, t) => ((b :: l) :: ls, t)

/-- The final flush at end of stream: `if old_data_end > 0 {
write_warning(&buffer[..old_data_end]) }` — the whole remaining buffer as one
line if it is nonempty, otherwise nothing. -/
def flushTail (t : List Nat) : List (List Nat) := if t = [] then [] else [t]

/-- The notice line written when the read itself failed:
`write_warning(format!("Failed to read from child stderr: {err}").as_bytes())`. -/
def errorNotice (msg : String) : List Nat :=
  ("Failed to read from child stderr: " ++ msg).data.map Char.toNat

/-- The read loop body of `StderrForwarder::forward_available`, recursing over
the remaining trace of read results.  Returns `none` if the trace is exhausted
without a loop exit (the real blocking read would wait forever), otherwise
`some (done, forwarded lines in order, forwarder state after the call)` where
the state is `none` exactly when `self.inner.take()` ran. -/
def forwardAvailableLoop :
    List ReadResult → List Nat →
    Option (Bool × List (List Nat) × Option (List ReadResult × List Nat))
  | [], _ => none
  | ReadResult.wouldBlock :: rest, buffer =>
    -- No data currently, yield back.
    some (false, [], some (rest, buffer))
  | ReadResult.interrupted :: rest, buffer =>
    -- Interrupted, try again.
    forwardAvailableLoop rest buffer
  | ReadResult.ok bytes :: rest, buffer =>
    if bytes = [] then
      -- End of stream: flush remaining data and bail.
      some (true, flushTail buffer, none)
    else
      -- Forward complete lines, leave the rest in the buffer, loop again.
      match forwardAvailableLoop rest (splitLines (buffer ++ bytes)).2 with
      | none => none
      | some (d, more, st) => some (d, (splitLines (buffer ++ bytes)).1 ++ more, st)
  | ReadResult.readErr msg :: _, buffer =>
    -- Read error: flush remaining data, emit the notice, and bail.
    some (true, flushTail buffer ++ [errorNotice msg], none)

/-- `StderrForwarder { inner: Option<(ChildStderr, Vec<u8>)> }`: the stream is
the trace of its future read results, the buffer is the byte list. -/
structure StderrForwarder where
  inner : Option (List ReadResult × List Nat)
deriving DecidableEq

/-- `StderrForwarder::new`: takes the stderr of the child (if captured) and starts
with an empty buffer. -/
def StderrForwarder.new (stderr : Option (List ReadResult)) : StderrForwarder :=
  { inner := stderr.map (fun s => (s, [])) }

/-- `StderrForwarder::forward_available`: runs the read loop if a stream is
present, otherwise immediately reports done.  Result as in
`forwardAvailableLoop`. -/
def forward_available (f : StderrForwarder) :
    Option (Bool × List (List Nat) × StderrForwarder) :=
  match f.inner with
  | some (events, buffer) =>
    (forwardAvailableLoop events buffer).map (fun r => (r.1, r.2.1, ⟨r.2.2⟩))
  | none => some (true, [], f)

/-- `StderrForwarder::forward_all`: one `forward_available` call followed by
`assert!(forward_result, "Should have consumed all data")`.  `none` models a
panic (assertion failure) or a forever-blocking read; `some (lines, f)` is a
normal return. -/
def forward_all (f : StderrForwarder) : Option (List (List Nat) × StderrForwarder) :=
  match forward_available f with
  | some (true, ls, f2) => some (ls, f2)
  | _ => none

/-- A caller that polls `forward_available` repeatedly until it reports done
(the repeated-drain usage the spec describes for non-blocking streams),
accumulating all forwarded lines.  Fuel bounds the number of calls; `none`
means done was not reached within the fuel. -/
def drainUntilDone : Nat → StderrForwarder → Option (List (List Nat) × StderrForwarder)
  | 0, _ => none
  | fuel + 1, f =>
    match forward_available f with
    | none => none
    | some (true, ls, f2) => some (ls, f2)
    | some (false, ls, f2) =>
      (drainUntilDone fuel f2).map (fun r => (ls ++ r.1, r.2))

/-- All bytes delivered by a trace of read results. -/
def traceBytes : List ReadResult → List Nat
  | [] => []
  | ReadResult.ok bytes :: rest => bytes ++ traceBytes rest
  | _ :: rest => traceBytes rest

/-- A well-formed stream trace: any interleaving of nonempty successful reads,
would-block and interrupted conditions, ending in a clean end of stream
(`ok []`) as its last event. -/
def wfTrace : List ReadResult → Bool
  | [] => false
  | ReadResult.ok bytes :: rest => if bytes.isEmpty then rest.isEmpty else wfTrace rest
  | ReadResult.wouldBlock :: rest => wfTrace rest
  | ReadResult.interrupted :: rest => wfTrace rest
  | ReadResult.readErr _ :: _ => false

/-- The trace eventually delivers end of stream or a fatal read error. -/
def reachesEnd : List ReadResult → Bool
  | [] => false
  | ReadResult.ok bytes :: rest => bytes.isEmpty || reachesEnd rest
  | ReadResult.interrupted :: rest => reachesEnd rest
  | ReadResult.wouldBlock :: rest => reachesEnd rest
  | ReadResult.readErr _ :: _ => true

/-- The trace never reports a would-block condition (a blocking-mode stream). -/
def noWouldBlock : List ReadResult → Bool
  | [] => true
  | ReadResult.wouldBlock :: _ => false
  | _ :: rest => noWouldBlock rest

/-- The byte list contains no newline byte. -/
def noNewline : List Nat → Bool
  | [] => true
  | b :: rest => if b = 10 then false else noNewline rest

/-- The buffer of the forwarder (if any) contains no newline byte. -/
def bufferNoNewline (f : StderrForwarder) : Bool :=
  match f.inner with
  | none => true
  | some (_, b) => noNewline b

/-- Reference line decomposition of a whole byte sequence: all complete lines
followed by the trailing partial line (if nonempty). -/
def allLines (x : List Nat) : List (List Nat) :=
  (splitLines x).1 ++ flushTail (splitLines x).2

/-- Reinsert newlines: concatenate the lines, terminating each with a newline
byte. -/
def rejoin : List (List Nat) → List Nat
  | [] => []
  | l :: ls => l ++ 10 :: rejoin ls

/-- The byte sequence is empty or ends with a newline byte. -/
def endsWithNl : List Nat → Bool
  | [] => true
  | [b] => b = 10
  | _ :: rest => endsWithNl rest

/-- `needle` occurs at the start of the character list. -/
def leadsWith : List Char → List Char → Bool
  | [], _ => true
  | _ :: _, [] => false
  | a :: as, b :: bs => a == b && leadsWith as bs

/-- `needle` occurs contiguously somewhere in the character list. -/
def containsSeq (needle : List Char) : List Char → Bool
  | [] => needle.isEmpty
  | b :: bs => leadsWith needle (b :: bs) || containsSeq needle bs

/-- `needle` occurs as a contiguous substring of `hay`. -/
def msgContains (needle hay : String) : Bool := containsSeq needle.data hay.data

/-- `enum ErrorKind { IOError, ToolExecError, ToolNotFound }`. -/
inductive ErrorKind where
  | IOError
  | ToolExecError
  | ToolNotFound
deriving DecidableEq

/-- `struct Error` with a kind and a message (a copy-on-write string). -/
structure Error where
  kind : ErrorKind
  message : String
deriving DecidableEq

/-- `Error::new(kind, message)`. -/
def Error.new (kind : ErrorKind) (message : String) : Error := ⟨kind, message⟩

/-- `impl From<io::Error> for Error`: wraps the display text as an `IOError`. -/
def Error.fromIoErr (e : String) : Error := Error.new ErrorKind.IOError e

/-- A `Stdio` destination for a child standard stream. -/
inductive StdioCfg where
  | inherit
  | piped
  | null
deriving DecidableEq

/-- `CargoOutput { metadata, warnings, debug, output: OutputKind::Forward }`
(the `checked_dbg_var` one-shot flag and the single-variant `output` field are
omitted: they only gate diagnostic printing). -/
structure CargoOutput where
  metadata : Bool
  warnings : Bool
  debug : Bool
deriving DecidableEq

/-- `CargoOutput::stdio_for_warnings`: pipe the child stderr if warnings are
captured, otherwise discard it. -/
def CargoOutput.stdio_for_warnings (c : CargoOutput) : StdioCfg :=
  if c.warnings then StdioCfg.piped else StdioCfg.null

/-- `CargoOutput::stdio_for_output`: `OutputKind::Forward` always inherits. -/
def CargoOutput.stdio_for_output (_ : CargoOutput) : StdioCfg := StdioCfg.inherit

/-- A child process exit status: its numeric status code. -/
structure ExitStatus where
  code : Nat
deriving DecidableEq

/-- `ExitStatus::success()`: the status code is zero. -/
def ExitStatus.success (s : ExitStatus) : Bool := s.code == 0

/-- The `Display` text of an exit status, as used in error messages. -/
def statusDisplay (s : ExitStatus) : String := "exit status: " ++ toString s.code

/-- A spawned child process: its captured stderr stream (present iff stderr
was piped), and the outcome of the one blocking `wait()` call. -/
structure Child where
  stderr : Option (List ReadResult)
  waitResult : Except String ExitStatus

/-- The state of a `Command` value: its debug representation (program and
argument list, used by `{:?}` in error messages) and the configured
destinations of the stderr and stdout of the child. -/
structure CommandState where
  reprStr : String
  stderr_cfg : StdioCfg
  stdout_cfg : StdioCfg
deriving DecidableEq

/-- The `Drop` impl of `ResetStderr`: `self.0.stderr(Stdio::inherit())`. -/
def resetStderr (cs : CommandState) : CommandState :=
  { cs with stderr_cfg := StdioCfg.inherit }

/-- The response of the environment to the underlying `Command::spawn` call:
success with a child, failure with `io::ErrorKind::NotFound`, or any other
failure (carrying its debug text). -/
inductive SpawnOutcome where
  | ok (child : Child)
  | errNotFound
  | errOther (msg : String)

/-- Message of the `ToolNotFound` error:
`format!("Failed to find tool. Is `{}` installed?{}", program.display(), extra)`
where `extra` is a documentation pointer on Windows and empty elsewhere. -/
def notFoundMsg (program : String) (isWindows : Bool) : String :=
  "Failed to find tool. Is `" ++ program ++ "` installed?" ++
    (if isWindows then
      " (see https://docs.rs/cc/latest/cc/#compile-time-requirements for help)"
    else "")

/-- The Windows-only actionable hint appended to the not-found message. -/
def windowsHint : String :=
  " (see https://docs.rs/cc/latest/cc/#compile-time-requirements for help)"

/-- Message of the `ToolExecError` for a spawn failure other than not-found:
`format!("Command {:?} with args {} failed to start: {:?}", cmd, program.display(), e)`. -/
def failedToStartMsg (cmdRepr program cause : String) : String :=
  "Command " ++ cmdRepr ++ " with args " ++ program ++ " failed to start: " ++ cause

/-- Message of the `ToolExecError` when `child.wait()` fails:
`format!("Failed to wait on spawned child process, command {:?} with args {}: {}.", ...)`. -/
def waitFailedMsg (cmdRepr program cause : String) : String :=
  "Failed to wait on spawned child process, command " ++ cmdRepr ++
    " with args " ++ program ++ ": " ++ cause ++ "."

/-- Message of the `ToolExecError` for a non-zero exit status:
`format!("Command {:?} with args {} did not execute successfully (status code {}).", ...)`. -/
def badStatusMsg (cmdRepr program : String) (status : ExitStatus) : String :=
  "Command " ++ cmdRepr ++ " with args " ++ program ++
    " did not execute successfully (status code " ++ statusDisplay status ++ ")."

/-- `spawn(cmd, program, cargo_output)`: configures the stderr of the child per
`stdio_for_warnings` and stdout per `stdio_for_output`, attempts the spawn,
and classifies failures into `ToolNotFound` (not-found) or `ToolExecError`
(anything else).  The returned `CommandState` is the state of `cmd` after the
call; on every path the `Drop` of the `ResetStderr` guard runs before returning,
modelled by `resetStderr` applied on each branch. -/
def spawn (cs : CommandState) (program : String) (cargo_output : CargoOutput)
    (outcome : SpawnOutcome) (isWindows : Bool) :
    Except Error Child × CommandState :=
  let cs2 := { cs with stderr_cfg := cargo_output.stdio_for_warnings,
                       stdout_cfg := cargo_output.stdio_for_output }
  match outcome with
  | SpawnOutcome.ok child => (Except.ok child, resetStderr cs2)
  | SpawnOutcome.errNotFound =>
    (Except.error (Error.new ErrorKind.ToolNotFound (notFoundMsg program isWindows)),
     resetStderr cs2)
  | SpawnOutcome.errOther e =>
    (Except.error (Error.new ErrorKind.ToolExecError
        (failedToStartMsg cs2.reprStr program e)),
     resetStderr cs2)

/-- `wait_on_child(cmd, program, child, cargo_output)`: first
`StderrForwarder::new(child).forward_all()` (a `none` there is a panic or a
forever-blocked read, so no result is produced), then `child.wait()`, then
classification: wait failure and non-zero status both give `ToolExecError`,
status code zero gives success.  Returns the forwarded lines together with
the classified result. -/
def wait_on_child (cmdRepr program : String) (child : Child) :
    Option (List (List Nat) × Except Error Unit) :=
  match forward_all (StderrForwarder.new child.stderr) with
  | none => none
  | some (lines, _) =>
    match child.waitResult with
    | Except.error e =>
      some (lines, Except.error (Error.new ErrorKind.ToolExecError
        (waitFailedMsg cmdRepr program e)))
    | Except.ok status =>
      if status.success then
        some (lines, Except.ok ())
      else
        some (lines, Except.error (Error.new ErrorKind.ToolExecError
          (badStatusMsg cmdRepr program status)))

/-- `run(cmd, program, cargo_output)`: spawn, propagating a spawn error
unchanged, then `wait_on_child`.  Result: the classified outcome, the lines
forwarded from the stderr of the child, and the final state of `cmd`. -/
def run (cs : CommandState) (program : String) (cargo_output : CargoOutput)
    (outcome : SpawnOutcome) (isWindows : Bool) :
    Option (Except Error Unit × List (List Nat) × CommandState) :=
  match spawn cs program cargo_output outcome isWindows with
  | (Except.error e, cs2) => some (Except.error e, [], cs2)
  | (Except.ok child, cs2) =>
    (wait_on_child cs2.reprStr program child).map (fun r => (r.2, r.1, cs2))

/-! ### Lemmas about line splitting -/

theorem noNewline_splitLines_snd (x : List Nat) : noNewline (splitLines x).2 = true := by
  induction x with
  | nil => rfl
  | cons b rest ih =>
    by_cases hb : b = 10
    · simpa [splitLines, hb] using ih
    · rcases h : splitLines rest with ⟨ls, t⟩
      rw [h] at ih
      cases ls with
      | nil => simpa [splitLines, hb, h, noNewline] using ih
      | cons l ls2 => simpa [splitLines, hb, h] using ih

theorem splitLines_of_noNewline (x : List Nat) (hx : noNewline x = true) :
    splitLines x = ([], x) := by
  induction x with
  | nil => rfl
  | cons b rest ih =>
    have hb : ¬ b = 10 := by
      intro hb
      simp [noNewline, hb] at hx
    have hrest : noNewline rest = true := by
      simpa [noNewline, hb] using hx
    simp [splitLines, hb, ih hrest]

theorem splitLines_append (a b : List Nat) :
    splitLines (a ++ b) =
      ((splitLines a).1 ++ (splitLines ((splitLines a).2 ++ b)).1,
       (splitLines ((splitLines a).2 ++ b)).2) := by
  induction a with
  | nil => simp [splitLines]
  | cons c a2 ih =>
    by_cases hc : c = 10
    · subst hc
      simp [splitLines, ih]
    · rcases hpq : splitLines a2 with ⟨p, q⟩
      rw [hpq] at ih
      rcases hX : splitLines (q ++ b) with ⟨X1, X2⟩
      rw [hX] at ih
      cases p with
      | nil =>
        cases X1 with
        | nil => simp [splitLines, hc, hpq, hX, ih]
        | cons l ls => simp [splitLines, hc, hpq, hX, ih]
      | cons m M => simp [splitLines, hc, hpq, hX, ih]

theorem rejoin_splitLines (x : List Nat) :
    rejoin (splitLines x).1 ++ (splitLines x).2 = x := by
  induction x with
  | nil => rfl
  | cons b rest ih =>
    by_cases hb : b = 10
    · subst hb
      simp [splitLines, rejoin, ih]
    · rcases h : splitLines rest with ⟨ls, t⟩
      rw [h] at ih
      cases ls with
      | nil =>
        simp only [rejoin, List.nil_append] at ih
        simp [splitLines, hb, h, rejoin, ih]
      | cons l ls2 =>
        simp only [rejoin, List.cons_append, List.append_assoc] at ih
        simp [splitLines, hb, h, rejoin, ih]

theorem allLines_append (a b : List Nat) :
    allLines (a ++ b) = (splitLines a).1 ++ allLines ((splitLines a).2 ++ b) := by
  simp [allLines, splitLines_append a b]

theorem allLines_of_noNewline (x : List Nat) (hx : noNewline x = true) :
    allLines x = flushTail x := by
  simp [allLines, splitLines_of_noNewline x hx, flushTail]

/-! ### Lemmas about trailing newlines and rejoining -/

theorem endsWithNl_append_right (a b : List Nat) (hb : b ≠ []) :
    endsWithNl (a ++ b) = endsWithNl b := by
  induction a with
  | nil => rfl
  | cons c a2 ih =>
    rcases h : a2 ++ b with _ | ⟨d, r⟩
    · rcases List.append_eq_nil.mp h with ⟨_, h2⟩
      exact absurd h2 hb
    · have : endsWithNl (c :: a2 ++ b) = endsWithNl (a2 ++ b) := by
        rw [List.cons_append, h]
        rfl
      rw [this, ih]

theorem endsWithNl_of_noNewline (b : List Nat) (h : noNewline b = true) (hb : b ≠ []) :
    endsWithNl b = false := by
  induction b with
  | nil => exact absurd rfl hb
  | cons c r ih =>
    have hc : ¬ c = 10 := by
      intro hc
      simp [noNewline, hc] at h
    have hr : noNewline r = true := by simpa [noNewline, hc] using h
    cases r with
    | nil => simpa [endsWithNl] using hc
    | cons d r2 =>
      have : endsWithNl (c :: d :: r2) = endsWithNl (d :: r2) := rfl
      rw [this]
      exact ih hr (by simp)

theorem endsWithNl_rejoin (L : List (List Nat)) : endsWithNl (rejoin L) = true := by
  induction L with
  | nil => rfl
  | cons l ls ih =>
    rcases h : rejoin ls with _ | ⟨d, r⟩
    · rw [rejoin, h]
      have : (10 : Nat) :: ([] : List Nat) = [] ++ [10] := rfl
      rw [this, endsWithNl_append_right l ([] ++ [10]) (by simp)]
      rfl
    · rw [rejoin, h]
      have h10 : (10 : Nat) :: d :: r = [10] ++ (d :: r) := rfl
      rw [h10, ← List.append_assoc, endsWithNl_append_right (l ++ [10]) (d :: r) (by simp),
        ← h, ih]

theorem rejoin_append (L M : List (List Nat)) :
    rejoin (L ++ M) = rejoin L ++ rejoin M := by
  induction L with
  | nil => rfl
  | cons l ls ih => simp [rejoin, ih]

theorem rejoin_allLines (x : List Nat) :
    rejoin (allLines x) = if endsWithNl x then x else x ++ [10] := by
  rcases h : splitLines x with ⟨L, t⟩
  have hrec := rejoin_splitLines x
  rw [h] at hrec
  dsimp only at hrec
  have hnl : noNewline t = true := by
    have := noNewline_splitLines_snd x
    rwa [h] at this
  by_cases ht : t = []
  · subst ht
    rw [List.append_nil] at hrec
    have hx : endsWithNl x = true := by
      rw [← hrec]
      exact endsWithNl_rejoin L
    simp [allLines, h, flushTail, hrec, hx]
  · have hend : endsWithNl x = false := by
      rw [← hrec, endsWithNl_append_right (rejoin L) t ht]
      exact endsWithNl_of_noNewline t hnl ht
    simp only [allLines, h, flushTail, if_neg ht]
    rw [rejoin_append, hend]
    simp [rejoin, ← hrec]

/-! ### Lemmas about the forwarder read loop -/

theorem forward_available_interrupted (rest : List ReadResult) (buffer : List Nat) :
    forward_available ⟨some (ReadResult.interrupted :: rest, buffer)⟩ =
      forward_available ⟨some (rest, buffer)⟩ := by
  simp [forward_available, forwardAvailableLoop]

theorem drainUntilDone_congr (fuel : Nat) (f g : StderrForwarder)
    (h : forward_available f = forward_available g) :
    drainUntilDone fuel f = drainUntilDone fuel g := by
  cases fuel with
  | zero => rfl
  | succ n =>
    simp only [drainUntilDone]
    rw [h]

theorem drainUntilDone_ok_cons (fuel : Nat) (bytes : List Nat) (hb : ¬ bytes = [])
    (rest : List ReadResult) (buffer : List Nat) :
    drainUntilDone fuel ⟨some (ReadResult.ok bytes :: rest, buffer)⟩ =
      (drainUntilDone fuel ⟨some (rest, (splitLines (buffer ++ bytes)).2)⟩).map
        (fun r => ((splitLines (buffer ++ bytes)).1 ++ r.1, r.2)) := by
  cases fuel with
  | zero => rfl
  | succ n =>
    rcases hres : forwardAvailableLoop rest (splitLines (buffer ++ bytes)).2
      with _ | ⟨d, more, st⟩
    · simp [drainUntilDone, forward_available, forwardAvailableLoop, hb, hres]
    · cases d with
      | true => simp [drainUntilDone, forward_available, forwardAvailableLoop, hb, hres]
      | false =>
        rcases hdr : drainUntilDone n ⟨st⟩ with _ | ⟨ls2, f3⟩
        · simp [drainUntilDone, forward_available, forwardAvailableLoop, hb, hres, hdr]
        · simp [drainUntilDone, forward_available, forwardAvailableLoop, hb, hres, hdr]

theorem drainUntilDone_wf (tr : List ReadResult) (h : wfTrace tr = true) :
    ∀ (buffer : List Nat) (fuel : Nat), noNewline buffer = true → tr.length < fuel →
      drainUntilDone fuel ⟨some (tr, buffer)⟩ =
        some (allLines (buffer ++ traceBytes tr), ⟨none⟩) := by
  induction tr with
  | nil => simp [wfTrace] at h
  | cons e rest ih =>
    intro buffer fuel hbuf hfuel
    cases e with
    | ok bytes =>
      by_cases hbe : bytes = []
      · subst hbe
        have hrest : rest = [] := by simpa [wfTrace] using h
        subst hrest
        cases fuel with
        | zero => exact absurd hfuel (by simp)
        | succ n =>
          simp [drainUntilDone, forward_available, forwardAvailableLoop, traceBytes,
            allLines_of_noNewline buffer hbuf]
      · have hwf : wfTrace rest = true := by simpa [wfTrace, hbe] using h
        have hn : rest.length < fuel := by
          simp only [List.length_cons] at hfuel
          omega
        rw [drainUntilDone_ok_cons fuel bytes hbe rest buffer,
          ih hwf _ fuel (noNewline_splitLines_snd _) hn]
        simp only [Option.map_some', traceBytes]
        rw [← List.append_assoc, allLines_append (buffer ++ bytes) (traceBytes rest)]
    | wouldBlock =>
      have hwf : wfTrace rest = true := by simpa [wfTrace] using h
      cases fuel with
      | zero => exact absurd hfuel (by simp)
      | succ n =>
        have hn : rest.length < n := by
          simp only [List.length_cons] at hfuel
          omega
        simp [drainUntilDone, forward_available, forwardAvailableLoop,
          ih hwf buffer n hbuf hn, traceBytes]
    | interrupted =>
      have hwf : wfTrace rest = true := by simpa [wfTrace] using h
      have hn : rest.length < fuel := by
        simp only [List.length_cons] at hfuel
        omega
      rw [drainUntilDone_congr fuel _ _ (forward_available_interrupted rest buffer),
        ih hwf buffer fuel hbuf hn]
      simp [traceBytes]
    | readErr msg => simp [wfTrace] at h

theorem forwardAvailableLoop_done_state (tr : List ReadResult) :
    ∀ (buf : List Nat) (ls : List (List Nat)) st,
      forwardAvailableLoop tr buf = some (true, ls, st) → st = none := by
  induction tr with
  | nil =>
    intro buf ls st hst
    simp [forwardAvailableLoop] at hst
  | cons e rest ih =>
    intro buf ls st hst
    cases e with
    | wouldBlock => simp [forwardAvailableLoop] at hst
    | interrupted =>
      simp only [forwardAvailableLoop] at hst
      exact ih buf ls st hst
    | ok bytes =>
      by_cases hbe : bytes = []
      · simp [forwardAvailableLoop, hbe] at hst
        exact hst.2.symm
      · rcases hres : forwardAvailableLoop rest (splitLines (buf ++ bytes)).2
          with _ | ⟨d, more, st2⟩
        · simp [forwardAvailableLoop, hbe, hres] at hst
        · simp only [forwardAvailableLoop, hbe, if_neg hbe, hres] at hst
          obtain ⟨hd, _, hst2⟩ := by simpa using hst
          subst hd
          rw [← hst2]
          exact ih _ more st2 hres
    | readErr msg =>
      simp [forwardAvailableLoop] at hst
      exact hst.2.symm

theorem forwardAvailableLoop_reachesEnd (tr : List ReadResult) :
    ∀ (buf : List Nat), noWouldBlock tr = true → reachesEnd tr = true →
      ∃ ls, forwardAvailableLoop tr buf = some (true, ls, none) := by
  induction tr with
  | nil =>
    intro buf _ h2
    simp [reachesEnd] at h2
  | cons e rest ih =>
    intro buf h1 h2
    cases e with
    | wouldBlock => simp [noWouldBlock] at h1
    | interrupted =>
      simp only [noWouldBlock] at h1
      simp only [reachesEnd] at h2
      obtain ⟨ls, hls⟩ := ih buf h1 h2
      exact ⟨ls, by simpa [forwardAvailableLoop] using hls⟩
    | ok bytes =>
      by_cases hbe : bytes = []
      · exact ⟨flushTail buf, by simp [forwardAvailableLoop, hbe]⟩
      · simp only [noWouldBlock] at h1
        have h2r : reachesEnd rest = true := by
          simpa [reachesEnd, List.isEmpty_iff, hbe] using h2
        obtain ⟨more, hmore⟩ := ih (splitLines (buf ++ bytes)).2 h1 h2r
        exact ⟨(splitLines (buf ++ bytes)).1 ++ more,
          by simp [forwardAvailableLoop, hbe, hmore]⟩
    | readErr msg =>
      exact ⟨flushTail buf ++ [errorNotice msg], by simp [forwardAvailableLoop]⟩

theorem forwardAvailableLoop_buffer (tr : List ReadResult) :
    ∀ (buf : List Nat) d ls rest2 b2, noNewline buf = true →
      forwardAvailableLoop tr buf = some (d, ls, some (rest2, b2)) →
      noNewline b2 = true := by
  induction tr with
  | nil =>
    intro buf d ls rest2 b2 _ hst
    simp [forwardAvailableLoop] at hst
  | cons e rest ih =>
    intro buf d ls rest2 b2 hbuf hst
    cases e with
    | wouldBlock =>
      simp [forwardAvailableLoop] at hst
      rw [← hst.2.2.2]
      exact hbuf
    | interrupted =>
      simp only [forwardAvailableLoop] at hst
      exact ih buf d ls rest2 b2 hbuf hst
    | ok bytes =>
      by_cases hbe : bytes = []
      · simp [forwardAvailableLoop, hbe] at hst
      · rcases hres : forwardAvailableLoop rest (splitLines (buf ++ bytes)).2
          with _ | ⟨d2, more, st2⟩
        · simp [forwardAvailableLoop, hbe, hres] at hst
        · simp only [forwardAvailableLoop, hbe, if_neg hbe, hres] at hst
          obtain ⟨_, _, hst2⟩ := by simpa using hst
          rw [hst2] at hres
          exact ih _ d2 more rest2 b2 (noNewline_splitLines_snd _) hres
    | readErr msg => simp [forwardAvailableLoop] at hst

/-! ### Lemmas about message containment -/

theorem strData_append (a b : String) : (a ++ b).data = a.data ++ b.data := by
  cases a
  cases b
  rfl

theorem leadsWith_append (n t : List Char) : leadsWith n (n ++ t) = true := by
  induction n with
  | nil => rfl
  | cons a as ih => simp [leadsWith, ih]

theorem containsSeq_append (s n t : List Char) : containsSeq n (s ++ n ++ t) = true := by
  induction s with
  | nil =>
    cases n with
    | nil =>
      cases t with
      | nil => rfl
      | cons b bs => simp [containsSeq, leadsWith]
    | cons a as =>
      simp only [List.nil_append, List.cons_append, containsSeq, Bool.or_eq_true]
      exact Or.inl (leadsWith_append (a :: as) t)
  | cons c s2 ih =>
    have heq : containsSeq n ((c :: s2) ++ n ++ t) =
        (leadsWith n ((c :: s2) ++ n ++ t) || containsSeq n (s2 ++ n ++ t)) := rfl
    rw [heq, ih, Bool.or_true]

theorem msgContains_of_data (needle pre post hay : String)
    (h : hay.data = pre.data ++ needle.data ++ post.data) : msgContains needle hay = true := by
  rw [msgContains, h]
  exact containsSeq_append pre.data needle.data post.data

theorem msgContains_failedToStart_cmd (c p e : String) :
    msgContains c (failedToStartMsg c p e) = true :=
  msgContains_of_data c "Command " (" with args " ++ p ++ " failed to start: " ++ e) _
    (by simp [failedToStartMsg, strData_append])

theorem msgContains_failedToStart_program (c p e : String) :
    msgContains p (failedToStartMsg c p e) = true :=
  msgContains_of_data p ("Command " ++ c ++ " with args ") (" failed to start: " ++ e) _
    (by simp [failedToStartMsg, strData_append])

theorem msgContains_failedToStart_cause (c p e : String) :
    msgContains e (failedToStartMsg c p e) = true :=
  msgContains_of_data e ("Command " ++ c ++ " with args " ++ p ++ " failed to start: ") "" _
    (by simp [failedToStartMsg, strData_append])

theorem msgContains_waitFailed_cmd (c p e : String) :
    msgContains c (waitFailedMsg c p e) = true :=
  msgContains_of_data c "Failed to wait on spawned child process, command "
    (" with args " ++ p ++ ": " ++ e ++ ".") _
    (by simp [waitFailedMsg, strData_append])

theorem msgContains_waitFailed_program (c p e : String) :
    msgContains p (waitFailedMsg c p e) = true :=
  msgContains_of_data p
    ("Failed to wait on spawned child process, command " ++ c ++ " with args ")
    (": " ++ e ++ ".") _
    (by simp [waitFailedMsg, strData_append])

theorem msgContains_waitFailed_cause (c p e : String) :
    msgContains e (waitFailedMsg c p e) = true :=
  msgContains_of_data e
    ("Failed to wait on spawned child process, command " ++ c ++ " with args " ++ p ++ ": ")
    "." _
    (by simp [waitFailedMsg, strData_append])

theorem msgContains_badStatus_cmd (c p : String) (st : ExitStatus) :
    msgContains c (badStatusMsg c p st) = true :=
  msgContains_of_data c "Command "
    (" with args " ++ p ++ " did not execute successfully (status code " ++
      statusDisplay st ++ ").") _
    (by simp [badStatusMsg, strData_append])

theorem msgContains_badStatus_program (c p : String) (st : ExitStatus) :
    msgContains p (badStatusMsg c p st) = true :=
  msgContains_of_data p ("Command " ++ c ++ " with args ")
    (" did not execute successfully (status code " ++ statusDisplay st ++ ").") _
    (by simp [badStatusMsg, strData_append])

theorem msgContains_badStatus_status (c p : String) (st : ExitStatus) :
    msgContains (statusDisplay st) (badStatusMsg c p st) = true :=
  msgContains_of_data (statusDisplay st)
    ("Command " ++ c ++ " with args " ++ p ++ " did not execute successfully (status code ")
    ")." _
    (by simp [badStatusMsg, strData_append])

theorem msgContains_notFound_program (p : String) (w : Bool) :
    msgContains p (notFoundMsg p w) = true :=
  msgContains_of_data p "Failed to find tool. Is `"
    ("` installed?" ++
      (if w then
        " (see https://docs.rs/cc/latest/cc/#compile-time-requirements for help)"
      else "")) _
    (by simp [notFoundMsg, strData_append])

theorem msgContains_notFound_hint (p : String) :
    msgContains windowsHint (notFoundMsg p true) = true :=
  msgContains_of_data windowsHint ("Failed to find tool. Is `" ++ p ++ "` installed?") "" _
    (by simp [notFoundMsg, windowsHint, strData_append])

/-! ### Bridging lemmas -/

theorem forward_available_none (f : StderrForwarder) (hf : f.inner = none) :
    forward_available f = some (true, [], f) := by
  unfold forward_available
  rw [hf]

theorem forward_available_inner (f : StderrForwarder) (events : List ReadResult)
    (buffer : List Nat) (hf : f.inner = some (events, buffer)) :
    forward_available f =
      (forwardAvailableLoop events buffer).map (fun r => (r.1, r.2.1, ⟨r.2.2⟩)) := by
  unfold forward_available
  rw [hf]

theorem forward_available_done_inner (f : StderrForwarder) (ls : List (List Nat))
    (f2 : StderrForwarder) (h : forward_available f = some (true, ls, f2)) :
    f2.inner = none := by
  rcases hf : f.inner with _ | ⟨events, buffer⟩
  · rw [forward_available_none f hf] at h
    obtain ⟨-, hf2⟩ := by simpa using h
    rw [← hf2]
    exact hf
  · rw [forward_available_inner f events buffer hf] at h
    rcases hres : forwardAvailableLoop events buffer with _ | ⟨d, more, st⟩
    · rw [hres] at h
      simp at h
    · rw [hres] at h
      obtain ⟨hd, -, hst⟩ := by simpa using h
      subst hd
      have hnone := forwardAvailableLoop_done_state events buffer more st hres
      rw [← hst]
      simpa using hnone

theorem run_spawn_ok (cs : CommandState) (p : String) (co : CargoOutput)
    (child : Child) (w : Bool) :
    run cs p co (SpawnOutcome.ok child) w =
      (wait_on_child cs.reprStr p child).map
        (fun r => (r.2, r.1,
          resetStderr { cs with stderr_cfg := co.stdio_for_warnings,
                                stdout_cfg := co.stdio_for_output })) := rfl

theorem wait_on_child_error_kind (c p : String) (child : Child)
    (lines : List (List Nat)) (e : Error)
    (h : wait_on_child c p child = some (lines, Except.error e)) :
    e.kind = ErrorKind.ToolExecError := by
  unfold wait_on_child at h
  rcases hf : forward_all (StderrForwarder.new child.stderr) with _ | ⟨ls, f2⟩
  · rw [hf] at h
    simp at h
  · rw [hf] at h
    rcases hw : child.waitResult with e2 | st
    · rw [hw] at h
      obtain ⟨-, he⟩ := by simpa using h
      rw [← he]
      rfl
    · rw [hw] at h
      by_cases hs : st.success
      · simp [hs] at h
      · simp only [hs, Bool.false_eq_true, if_false] at h
        obtain ⟨-, he⟩ := by simpa using h
        rw [← he]
        rfl

/-! ### Claim theorems -/

/-- Claim C1: for every finite byte sequence delivered to a `StderrForwarder`
across arbitrary chunk boundaries, with any interleaving of would-block and
interrupted-read conditions across repeated `forward_available` calls, the
forwarded lines are exactly the in-order line decomposition of the delivered
bytes (no line duplicated or dropped), and rejoining them with newlines
reinserted reproduces the original byte sequence — exactly if it ended in a
newline, and with one extra trailing newline otherwise. -/
theorem chunking_invariance (tr : List ReadResult) (h : wfTrace tr = true) :
    drainUntilDone (tr.length + 1) (StderrForwarder.new (some tr)) =
      some (allLines (traceBytes tr), ⟨none⟩) ∧
    rejoin (allLines (traceBytes tr)) =
      (if endsWithNl (traceBytes tr) then traceBytes tr else traceBytes tr ++ [10]) := by
  constructor
  · have hmain := drainUntilDone_wf tr h [] (tr.length + 1) rfl (Nat.lt_succ_self _)
    simpa [StderrForwarder.new] using hmain
  · exact rejoin_allLines (traceBytes tr)

/-- Witness for `chunking_invariance`: bytes `"ab\nc"` delivered in two chunks
with a would-block and an interrupted read in between; the forwarded lines are
`["ab"]` followed by the flushed trailing `"c"`. -/
theorem chunking_invariance_witness :
    wfTrace [ReadResult.ok [97, 98], ReadResult.wouldBlock, ReadResult.interrupted,
      ReadResult.ok [10, 99], ReadResult.ok []] = true ∧
    drainUntilDone 6 (StderrForwarder.new (some [ReadResult.ok [97, 98],
      ReadResult.wouldBlock, ReadResult.interrupted, ReadResult.ok [10, 99],
      ReadResult.ok []])) =
      some (allLines (traceBytes [ReadResult.ok [97, 98], ReadResult.wouldBlock,
        ReadResult.interrupted, ReadResult.ok [10, 99], ReadResult.ok []]), ⟨none⟩) ∧
    allLines [97, 98, 10, 99] = [[97, 98], [99]] :=
  ⟨by decide,
   (chunking_invariance [ReadResult.ok [97, 98], ReadResult.wouldBlock,
      ReadResult.interrupted, ReadResult.ok [10, 99], ReadResult.ok []] (by decide)).1,
   by decide⟩

/-- Claim C4 (counterexample): `forward_all` does not repeatedly call
`forward_available` until done — it calls it once and asserts.  On a stream
that reports would-block once and then end of stream (which eventually
reaches end of stream), `forward_all` hits the assertion (no normal return,
modelled as `none`), while a caller genuinely repeating `forward_available`
finishes normally. -/
theorem forward_all_assert_counterexample :
    reachesEnd [ReadResult.wouldBlock, ReadResult.ok []] = true ∧
    forward_all (StderrForwarder.new
      (some [ReadResult.wouldBlock, ReadResult.ok []])) = none ∧
    drainUntilDone 2 (StderrForwarder.new
      (some [ReadResult.wouldBlock, ReadResult.ok []])) = some ([], ⟨none⟩) := by
  refine ⟨by decide, by decide, by decide⟩

/-- Claim C4 (amended): `forward_all` makes a single `forward_available` call
and asserts that it reports done; provided the stream reaches end of stream
(or a fatal read error) without an intervening would-block condition, the
assertion holds and `forward_all` returns normally with the forwarder in the
done state (stream handle released). -/
theorem forward_all_done (tr : List ReadResult) (h1 : noWouldBlock tr = true)
    (h2 : reachesEnd tr = true) :
    ∃ ls, forward_all (StderrForwarder.new (some tr)) = some (ls, ⟨none⟩) := by
  obtain ⟨ls, hls⟩ := forwardAvailableLoop_reachesEnd tr [] h1 h2
  refine ⟨ls, ?_⟩
  have hfa : forward_available (StderrForwarder.new (some tr)) =
      some (true, ls, ⟨none⟩) := by
    rw [forward_available_inner (StderrForwarder.new (some tr)) tr [] rfl, hls]
    rfl
  rw [forward_all, hfa]

/-- Witness for `forward_all_done`: a single byte then end of stream. -/
theorem forward_all_done_witness :
    noWouldBlock [ReadResult.ok [104], ReadResult.ok []] = true ∧
    reachesEnd [ReadResult.ok [104], ReadResult.ok []] = true ∧
    ∃ ls, forward_all (StderrForwarder.new
      (some [ReadResult.ok [104], ReadResult.ok []])) = some (ls, ⟨none⟩) :=
  ⟨by decide, by decide, forward_all_done _ (by decide) (by decide)⟩

/-- Claim C6: at end of stream (a zero-byte read) or on a fatal read error,
`forward_available` flushes any nonempty partial line as one final line, adds
an explicit notice line when the read itself errored, releases the stream
handle (inner state becomes `none`), and reports done; a forwarder fed the
bytes of `"partial"` with no trailing newline forwards nothing before end of
stream and exactly `["partial"]` at end of stream. -/
theorem eof_flush_behavior :
    (∀ (buf : List Nat), forward_available ⟨some ([ReadResult.ok []], buf)⟩ =
      some (true, flushTail buf, ⟨none⟩)) ∧
    (∀ (buf : List Nat) (msg : String) (rest : List ReadResult),
      forward_available ⟨some (ReadResult.readErr msg :: rest, buf)⟩ =
      some (true, flushTail buf ++ [errorNotice msg], ⟨none⟩)) ∧
    forward_available (StderrForwarder.new (some
      [ReadResult.ok [112, 97, 114, 116, 105, 97, 108], ReadResult.wouldBlock])) =
      some (false, [], ⟨some ([], [112, 97, 114, 116, 105, 97, 108])⟩) ∧
    forward_available (StderrForwarder.new (some
      [ReadResult.ok [112, 97, 114, 116, 105, 97, 108], ReadResult.ok []])) =
      some (true, [[112, 97, 114, 116, 105, 97, 108]], ⟨none⟩) := by
  refine ⟨?_, ?_, by decide, by decide⟩
  · intro buf
    simp [forward_available, forwardAvailableLoop]
  · intro buf msg rest
    simp [forward_available, forwardAvailableLoop]

/-- Claim C7: a forwarder constructed without a captured stream starts in the
already-finished state; a forwarder that received no bytes and then end of
stream reports done once with no lines; and once any `forward_available` call
reports done, every further `forward_available` or `forward_all` call is a
no-op that forwards nothing and reports done again (idempotence). -/
theorem drain_after_done :
    StderrForwarder.new none = ⟨none⟩ ∧
    forward_available ⟨some ([ReadResult.ok []], [])⟩ = some (true, [], ⟨none⟩) ∧
    (∀ (f : StderrForwarder) (ls : List (List Nat)) (f2 : StderrForwarder),
      forward_available f = some (true, ls, f2) →
      forward_available f2 = some (true, [], f2) ∧ forward_all f2 = some ([], f2)) := by
  refine ⟨rfl, by decide, ?_⟩
  intro f ls f2 h
  have hinner : f2.inner = none := forward_available_done_inner f ls f2 h
  have hfa : forward_available f2 = some (true, [], f2) := forward_available_none f2 hinner
  exact ⟨hfa, by rw [forward_all, hfa]⟩

/-- Witness for `drain_after_done`, applied to the no-stream forwarder. -/
theorem drain_after_done_witness :
    forward_available (⟨none⟩ : StderrForwarder) = some (true, [], ⟨none⟩) ∧
    forward_all (⟨none⟩ : StderrForwarder) = some ([], ⟨none⟩) :=
  drain_after_done.2.2 ⟨none⟩ [] ⟨none⟩ rfl

/-- Claim C8: the buffer of the forwarder never contains a newline byte — it holds
at construction and is preserved by every `forward_available` call, so after
each drain step only a trailing partial line remains unflushed. -/
theorem buffer_invariant :
    (∀ (s : Option (List ReadResult)), bufferNoNewline (StderrForwarder.new s) = true) ∧
    (∀ (f : StderrForwarder) (d : Bool) (ls : List (List Nat)) (f2 : StderrForwarder),
      bufferNoNewline f = true → forward_available f = some (d, ls, f2) →
      bufferNoNewline f2 = true) := by
  constructor
  · intro s
    cases s <;> rfl
  · intro f d ls f2 hb h
    rcases hf : f.inner with _ | ⟨events, buffer⟩
    · rw [forward_available_none f hf] at h
      obtain ⟨-, -, hf2⟩ := by simpa using h
      rw [← hf2, bufferNoNewline, hf]
    · have hbuf : noNewline buffer = true := by
        rw [bufferNoNewline, hf] at hb
        exact hb
      rw [forward_available_inner f events buffer hf] at h
      rcases hres : forwardAvailableLoop events buffer with _ | ⟨d2, more, st⟩
      · rw [hres] at h
        simp at h
      · rw [hres] at h
        obtain ⟨-, -, hst⟩ := by simpa using h
        rcases hst2 : st with _ | ⟨rest2, b2⟩
        · rw [← hst, hst2, bufferNoNewline]
        · rw [hst2] at hres
          have := forwardAvailableLoop_buffer events buffer d2 more rest2 b2 hbuf hres
          rw [← hst, hst2, bufferNoNewline]
          exact this

/-- Witness for `buffer_invariant`: the bytes `"a\nb"` followed by a
would-block leave exactly the newline-free partial line `"b"` buffered. -/
theorem buffer_invariant_witness :
    bufferNoNewline (⟨some ([], [98])⟩ : StderrForwarder) = true :=
  buffer_invariant.2 ⟨some ([ReadResult.ok [97, 10, 98], ReadResult.wouldBlock], [])⟩
    false [[97]] ⟨some ([], [98])⟩ (by decide) (by decide)

/-- Claim C2: for every `run` whose spawn succeeds, the stderr forwarder must
be driven to completion before the exit status is inspected (if the forwarder
never completes, `run` produces no result at all, whatever the wait outcome);
a wait failure yields a `ToolExecError` describing it; a zero status code
yields success; a non-zero status code yields a `ToolExecError` whose message
names the command and the status code. -/
theorem run_exit_classification :
    (∀ (cs : CommandState) (p : String) (co : CargoOutput) (child : Child) (w : Bool),
      forward_all (StderrForwarder.new child.stderr) = none →
      run cs p co (SpawnOutcome.ok child) w = none) ∧
    (∀ (cs : CommandState) (p : String) (co : CargoOutput) (child : Child) (w : Bool)
        (ls : List (List Nat)) (f2 : StderrForwarder) (cause : String),
      forward_all (StderrForwarder.new child.stderr) = some (ls, f2) →
      child.waitResult = Except.error cause →
      ∃ cs2, run cs p co (SpawnOutcome.ok child) w =
        some (Except.error (Error.new ErrorKind.ToolExecError
          (waitFailedMsg cs.reprStr p cause)), ls, cs2)) ∧
    (∀ (cs : CommandState) (p : String) (co : CargoOutput) (child : Child) (w : Bool)
        (ls : List (List Nat)) (f2 : StderrForwarder) (st : ExitStatus),
      forward_all (StderrForwarder.new child.stderr) = some (ls, f2) →
      child.waitResult = Except.ok st → st.code = 0 →
      ∃ cs2, run cs p co (SpawnOutcome.ok child) w = some (Except.ok (), ls, cs2)) ∧
    (∀ (cs : CommandState) (p : String) (co : CargoOutput) (child : Child) (w : Bool)
        (ls : List (List Nat)) (f2 : StderrForwarder) (st : ExitStatus),
      forward_all (StderrForwarder.new child.stderr) = some (ls, f2) →
      child.waitResult = Except.ok st → st.code ≠ 0 →
      (∃ cs2, run cs p co (SpawnOutcome.ok child) w =
        some (Except.error (Error.new ErrorKind.ToolExecError
          (badStatusMsg cs.reprStr p st)), ls, cs2)) ∧
      msgContains cs.reprStr (badStatusMsg cs.reprStr p st) = true ∧
      msgContains (statusDisplay st) (badStatusMsg cs.reprStr p st) = true) := by
  refine ⟨?_, ?_, ?_, ?_⟩
  · intro cs p co child w hf
    rw [run_spawn_ok, wait_on_child, hf]
    rfl
  · intro cs p co child w ls f2 cause hf hw
    refine ⟨resetStderr
      { cs with stderr_cfg := co.stdio_for_warnings, stdout_cfg := co.stdio_for_output },
      ?_⟩
    rw [run_spawn_ok, wait_on_child, hf, hw]
    rfl
  · intro cs p co child w ls f2 st hf hw hc
    have hs : st.success = true := by simp [ExitStatus.success, hc]
    refine ⟨resetStderr
      { cs with stderr_cfg := co.stdio_for_warnings, stdout_cfg := co.stdio_for_output },
      ?_⟩
    rw [run_spawn_ok, wait_on_child, hf, hw]
    simp [hs]
  · intro cs p co child w ls f2 st hf hw hc
    have hs : st.success = false := by simp [ExitStatus.success, hc]
    refine ⟨⟨resetStderr
      { cs with stderr_cfg := co.stdio_for_warnings, stdout_cfg := co.stdio_for_output },
      ?_⟩, msgContains_badStatus_cmd _ _ _, msgContains_badStatus_status _ _ _⟩
    rw [run_spawn_ok, wait_on_child, hf, hw]
    simp [hs]

/-- Witness for `run_exit_classification` on concrete children: a blocked
forwarder aborts `run`; a wait failure, a zero exit and a non-zero exit are
classified as claimed. -/
theorem run_exit_classification_witness :
    run ⟨"kc", StdioCfg.inherit, StdioCfg.inherit⟩ "kc" ⟨true, true, false⟩
      (SpawnOutcome.ok ⟨some [ReadResult.wouldBlock, ReadResult.ok []],
        Except.ok ⟨0⟩⟩) false = none ∧
    (∃ cs2, run ⟨"kc", StdioCfg.inherit, StdioCfg.inherit⟩ "kc" ⟨true, true, false⟩
      (SpawnOutcome.ok ⟨some [ReadResult.ok []], Except.error "gone"⟩) false =
      some (Except.error (Error.new ErrorKind.ToolExecError
        (waitFailedMsg "kc" "kc" "gone")), [], cs2)) ∧
    (∃ cs2, run ⟨"kc", StdioCfg.inherit, StdioCfg.inherit⟩ "kc" ⟨true, true, false⟩
      (SpawnOutcome.ok ⟨some [ReadResult.ok []], Except.ok ⟨0⟩⟩) false =
      some (Except.ok (), [], cs2)) ∧
    (∃ cs2, run ⟨"kc", StdioCfg.inherit, StdioCfg.inherit⟩ "kc" ⟨true, true, false⟩
      (SpawnOutcome.ok ⟨some [ReadResult.ok []], Except.ok ⟨3⟩⟩) false =
      some (Except.error (Error.new ErrorKind.ToolExecError
        (badStatusMsg "kc" "kc" ⟨3⟩)), [], cs2)) :=
  ⟨run_exit_classification.1 ⟨"kc", StdioCfg.inherit, StdioCfg.inherit⟩ "kc"
      ⟨true, true, false⟩ ⟨some [ReadResult.wouldBlock, ReadResult.ok []], Except.ok ⟨0⟩⟩
      false rfl,
   run_exit_classification.2.1 ⟨"kc", StdioCfg.inherit, StdioCfg.inherit⟩ "kc"
      ⟨true, true, false⟩ ⟨some [ReadResult.ok []], Except.error "gone"⟩ false
      [] ⟨none⟩ "gone" rfl rfl,
   run_exit_classification.2.2.1 ⟨"kc", StdioCfg.inherit, StdioCfg.inherit⟩ "kc"
      ⟨true, true, false⟩ ⟨some [ReadResult.ok []], Except.ok ⟨0⟩⟩ false
      [] ⟨none⟩ ⟨0⟩ rfl rfl rfl,
   (run_exit_classification.2.2.2 ⟨"kc", StdioCfg.inherit, StdioCfg.inherit⟩ "kc"
      ⟨true, true, false⟩ ⟨some [ReadResult.ok []], Except.ok ⟨3⟩⟩ false
      [] ⟨none⟩ ⟨3⟩ rfl rfl (by decide)).1⟩

/-- Claim C3: a spawn failure of the not-found kind yields `ToolNotFound`
naming the missing program (with the actionable hint on Windows); any other
spawn failure yields `ToolExecError` naming the command and the underlying
cause; and `run` returns a spawn error unchanged. -/
theorem spawn_error_classification :
    (∀ (cs : CommandState) (p : String) (co : CargoOutput) (w : Bool),
      (spawn cs p co SpawnOutcome.errNotFound w).1 =
        Except.error (Error.new ErrorKind.ToolNotFound (notFoundMsg p w)) ∧
      msgContains p (notFoundMsg p w) = true ∧
      (w = true → msgContains windowsHint (notFoundMsg p w) = true)) ∧
    (∀ (cs : CommandState) (p : String) (co : CargoOutput) (w : Bool) (cause : String),
      (spawn cs p co (SpawnOutcome.errOther cause) w).1 =
        Except.error (Error.new ErrorKind.ToolExecError
          (failedToStartMsg cs.reprStr p cause)) ∧
      msgContains cs.reprStr (failedToStartMsg cs.reprStr p cause) = true ∧
      msgContains cause (failedToStartMsg cs.reprStr p cause) = true) ∧
    (∀ (cs : CommandState) (p : String) (co : CargoOutput) (outcome : SpawnOutcome)
        (w : Bool) (e : Error) (cs2 : CommandState),
      spawn cs p co outcome w = (Except.error e, cs2) →
      run cs p co outcome w = some (Except.error e, [], cs2)) := by
  refine ⟨?_, ?_, ?_⟩
  · intro cs p co w
    refine ⟨rfl, msgContains_notFound_program p w, ?_⟩
    intro hw
    subst hw
    exact msgContains_notFound_hint p
  · intro cs p co w cause
    exact ⟨rfl, msgContains_failedToStart_cmd _ _ _, msgContains_failedToStart_cause _ _ _⟩
  · intro cs p co outcome w e cs2 hsp
    cases outcome with
    | ok child => simp [spawn] at hsp
    | errNotFound =>
      unfold run
      rw [hsp]
    | errOther cause =>
      unfold run
      rw [hsp]

/-- Witness for `spawn_error_classification` at a concrete command, on
Windows for the not-found case and with a concrete cause for the other. -/
theorem spawn_error_classification_witness :
    ((spawn ⟨"kc", StdioCfg.inherit, StdioCfg.inherit⟩ "kc" ⟨true, true, false⟩
        SpawnOutcome.errNotFound true).1 =
      Except.error (Error.new ErrorKind.ToolNotFound (notFoundMsg "kc" true)) ∧
      msgContains "kc" (notFoundMsg "kc" true) = true ∧
      (true = true → msgContains windowsHint (notFoundMsg "kc" true) = true)) ∧
    run ⟨"kc", StdioCfg.inherit, StdioCfg.inherit⟩ "kc" ⟨true, true, false⟩
        (SpawnOutcome.errOther "denied") false =
      some (Except.error (Error.new ErrorKind.ToolExecError
        (failedToStartMsg "kc" "kc" "denied")), [],
        ⟨"kc", StdioCfg.inherit, StdioCfg.inherit⟩) :=
  ⟨spawn_error_classification.1 ⟨"kc", StdioCfg.inherit, StdioCfg.inherit⟩ "kc"
      ⟨true, true, false⟩ true,
   spawn_error_classification.2.2 ⟨"kc", StdioCfg.inherit, StdioCfg.inherit⟩ "kc"
      ⟨true, true, false⟩ (SpawnOutcome.errOther "denied") false _ _ rfl⟩

/-- Claim C5 (counterexample): the claim says every error message includes
the command and the arguments attempted, but the `ToolNotFound` message for a
command whose debug representation (program plus arguments) is
`"kotlinc" "main.kt"` contains neither the argument `main.kt` nor the full
command representation — it only names the program. -/
theorem not_found_message_counterexample :
    (spawn ⟨"\"kotlinc\" \"main.kt\"", StdioCfg.inherit, StdioCfg.inherit⟩ "kotlinc"
        ⟨true, true, false⟩ SpawnOutcome.errNotFound false).1 =
      Except.error (Error.new ErrorKind.ToolNotFound (notFoundMsg "kotlinc" false)) ∧
    msgContains "main.kt" (notFoundMsg "kotlinc" false) = false ∧
    msgContains "\"kotlinc\" \"main.kt\"" (notFoundMsg "kotlinc" false) = false :=
  ⟨rfl, by decide, by decide⟩

/-- Claim C5 (amended): every `ToolExecError` message — spawn failure other
than not-found, wait failure, non-zero exit status — includes the command
with its arguments (its debug representation), the program, and the
distinguishing cause; the `ToolNotFound` message names only the missing
program (plus the Windows hint), not the arguments of the command. -/
theorem error_message_contents :
    (∀ (c p e : String), msgContains c (failedToStartMsg c p e) = true ∧
      msgContains p (failedToStartMsg c p e) = true ∧
      msgContains e (failedToStartMsg c p e) = true) ∧
    (∀ (c p e : String), msgContains c (waitFailedMsg c p e) = true ∧
      msgContains p (waitFailedMsg c p e) = true ∧
      msgContains e (waitFailedMsg c p e) = true) ∧
    (∀ (c p : String) (st : ExitStatus), msgContains c (badStatusMsg c p st) = true ∧
      msgContains p (badStatusMsg c p st) = true ∧
      msgContains (statusDisplay st) (badStatusMsg c p st) = true) ∧
    (∀ (p : String) (w : Bool), msgContains p (notFoundMsg p w) = true) ∧
    (∀ (p : String), msgContains windowsHint (notFoundMsg p true) = true) :=
  ⟨fun c p e => ⟨msgContains_failedToStart_cmd c p e,
      msgContains_failedToStart_program c p e, msgContains_failedToStart_cause c p e⟩,
   fun c p e => ⟨msgContains_waitFailed_cmd c p e,
      msgContains_waitFailed_program c p e, msgContains_waitFailed_cause c p e⟩,
   fun c p st => ⟨msgContains_badStatus_cmd c p st,
      msgContains_badStatus_program c p st, msgContains_badStatus_status c p st⟩,
   fun p w => msgContains_notFound_program p w,
   fun p => msgContains_notFound_hint p⟩

/-- Claim C9: on every exit path of `spawn` — successful spawn, not-found
failure, any other failure — the stderr destination of the command has been reset
to inherit-from-parent when `spawn` returns. -/
theorem spawn_resets_stderr (cs : CommandState) (p : String) (co : CargoOutput)
    (outcome : SpawnOutcome) (w : Bool) :
    ((spawn cs p co outcome w).2).stderr_cfg = StdioCfg.inherit := by
  cases outcome <;> rfl

/-- Claim C10: `spawn` and `run` never produce an error of kind `IOError`:
every error either returns has kind `ToolExecError` or `ToolNotFound`.
`IOError` arises only from the `From<io::Error>` conversion, which the
spawn/run path never invokes. -/
theorem no_io_error_kind :
    (∀ (m : String), (Error.fromIoErr m).kind = ErrorKind.IOError) ∧
    (∀ (cs : CommandState) (p : String) (co : CargoOutput) (outcome : SpawnOutcome)
        (w : Bool) (e : Error) (cs2 : CommandState),
      spawn cs p co outcome w = (Except.error e, cs2) →
      e.kind = ErrorKind.ToolExecError ∨ e.kind = ErrorKind.ToolNotFound) ∧
    (∀ (cs : CommandState) (p : String) (co : CargoOutput) (outcome : SpawnOutcome)
        (w : Bool) (e : Error) (ls : List (List Nat)) (cs2 : CommandState),
      run cs p co outcome w = some (Except.error e, ls, cs2) →
      e.kind = ErrorKind.ToolExecError ∨ e.kind = ErrorKind.ToolNotFound) := by
  refine ⟨fun m => rfl, ?_, ?_⟩
  · intro cs p co outcome w e cs2 hsp
    cases outcome with
    | ok child => simp [spawn] at hsp
    | errNotFound =>
      obtain ⟨he, -⟩ := by simpa [spawn] using hsp
      rw [← he]
      exact Or.inr rfl
    | errOther cause =>
      obtain ⟨he, -⟩ := by simpa [spawn] using hsp
      rw [← he]
      exact Or.inl rfl
  · intro cs p co outcome w e ls cs2 hrun
    cases outcome with
    | errNotFound =>
      obtain ⟨he, -⟩ := by simpa [run, spawn] using hrun
      rw [← he]
      exact Or.inr rfl
    | errOther cause =>
      obtain ⟨he, -⟩ := by simpa [run, spawn] using hrun
      rw [← he]
      exact Or.inl rfl
    | ok child =>
      rw [run_spawn_ok] at hrun
      rcases hwc : wait_on_child cs.reprStr p child with _ | ⟨lines, res⟩
      · rw [hwc] at hrun
        simp at hrun
      · rw [hwc] at hrun
        obtain ⟨hres, -, -⟩ := by simpa using hrun
        rw [hres] at hwc
        exact Or.inl (wait_on_child_error_kind cs.reprStr p child lines e hwc)

/-- Witness for `no_io_error_kind` on a concrete not-found spawn failure and a
concrete non-zero-exit run failure. -/
theorem no_io_error_kind_witness :
    ((Error.new ErrorKind.ToolNotFound (notFoundMsg "kc" false)).kind =
        ErrorKind.ToolExecError ∨
      (Error.new ErrorKind.ToolNotFound (notFoundMsg "kc" false)).kind =
        ErrorKind.ToolNotFound) ∧
    ((Error.new ErrorKind.ToolExecError (badStatusMsg "kc" "kc" ⟨3⟩)).kind =
        ErrorKind.ToolExecError ∨
      (Error.new ErrorKind.ToolExecError (badStatusMsg "kc" "kc" ⟨3⟩)).kind =
        ErrorKind.ToolNotFound) :=
  ⟨no_io_error_kind.2.1 ⟨"kc", StdioCfg.inherit, StdioCfg.inherit⟩ "kc"
      ⟨true, true, false⟩ SpawnOutcome.errNotFound false _
      ⟨"kc", StdioCfg.inherit, StdioCfg.inherit⟩ rfl,
   no_io_error_kind.2.2 ⟨"kc", StdioCfg.inherit, StdioCfg.inherit⟩ "kc"
      ⟨true, true, false⟩ (SpawnOutcome.ok ⟨some [ReadResult.ok []], Except.ok ⟨3⟩⟩)
      false _ [] ⟨"kc", StdioCfg.inherit, StdioCfg.inherit⟩ rfl⟩

end CommandHelpers
